import Mathlib

/-!
Verification of the Reconciliation and Consistency Engine of the
ai-auto-trading repository: a shallow embedding of the
PriceOrderMonitor scheduler (trigger classification, ledger
transaction writer, inconsistent-state recorder) and of the
DistributedLock lease manager, together with theorems settling the
frozen claims about them.

Prices, sizes and monetary amounts are embedded as rationals
(the source stores decimal strings and parses them to JS numbers);
timestamps are integers (milliseconds since the epoch).
-/

/-- Position side, as stored in the positions and price_orders tables. -/
inductive Side
  | long
  | short
deriving DecidableEq, Repr

/-- Kind of a conditional order (price_orders.type). -/
inductive OrderKind
  | stop_loss
  | take_profit
deriving DecidableEq, Repr

/-- Status of a conditional order (price_orders.status). -/
inductive OrderStatus
  | active
  | triggered
  | cancelled
deriving DecidableEq, Repr

/-- Kind of a trade row (trades.type is the string open or close). -/
inductive TradeKind
  | openK
  | closeK
deriving DecidableEq, Repr

/-- A row of the price_orders table, with the columns the monitor reads
and writes.  created_at is the order creation timestamp in ms. -/
structure DBPriceOrder where
  order_id : String
  symbol : String
  side : Side
  type : OrderKind
  trigger_price : Rat
  quantity : Rat
  created_at : Int
  status : OrderStatus
  updated_at : Int
  triggered_at : Option Int
deriving DecidableEq, Repr

/-- A row of the positions table (the columns the monitor uses). -/
structure DBPosition where
  symbol : String
  side : Side
  entry_price : Rat
  quantity : Rat
  leverage : Nat
deriving DecidableEq, Repr

/-- A row of the trades table. -/
structure TradeRow where
  order_id : String
  symbol : String
  side : Side
  type : TradeKind
  price : Rat
  quantity : Rat
  leverage : Nat
  pnl : Rat
  fee : Rat
  timestamp : Int
  status : String
deriving DecidableEq, Repr

/-- A row of the position_close_events table. -/
structure CloseEventRow where
  symbol : String
  side : Side
  close_reason : String
  trigger_type : String
  trigger_price : Rat
  close_price : Rat
  entry_price : Rat
  quantity : Rat
  leverage : Nat
  pnl : Rat
  pnl_percent : Rat
  fee : Rat
  trigger_order_id : String
  close_trade_id : String
  order_id : String
  created_at : Int
  processed : Bool
deriving DecidableEq, Repr

/-- A row of the inconsistent_states audit table. -/
structure InconsistentRow where
  operation : String
  symbol : String
  side : Side
  exchange_success : Bool
  db_success : Bool
  exchange_order_id : String
  error_message : String
  created_at : Int
  resolved : Bool
deriving DecidableEq, Repr

/-- The ledger store: the five tables the monitor touches. -/
structure Ledger where
  positions : List DBPosition
  priceOrders : List DBPriceOrder
  trades : List TradeRow
  closeEvents : List CloseEventRow
  inconsistent : List InconsistentRow
deriving DecidableEq, Repr

/-- A conditional order as reported by the exchange (getPriceOrders).
rule is the Gate trigger rule (1 means trigger at or above, 2 at or
below); it is optional because other exchanges may omit it. -/
structure ExOrder where
  id : String
  contract : String
  rule : Option Nat
deriving DecidableEq, Repr

/-- A position as reported by the exchange (getPositions). -/
structure ExPosition where
  contract : String
  size : Rat
deriving DecidableEq, Repr

/-- A fill as reported by the exchange (getMyTrades).  size is signed:
negative sells, positive buys. -/
structure ExTrade where
  id : String
  contract : String
  price : Rat
  size : Rat
  fee : Rat
  timestamp : Int
deriving DecidableEq, Repr

/-- One fixed snapshot of the exchange state: the order list, the
position list and the trade history the gateway would return. -/
structure Snapshot where
  orders : List ExOrder
  positions : List ExPosition
  trades : List ExTrade
deriving Repr

/-- The capability surface of the exchange gateway that the monitor
consumes: symbol normalization, PnL computation, and the contract-type
data used for fee computation. -/
structure Gateway where
  normalize : String → String
  calcPnl : Rat → Rat → Rat → Side → String → Rat
  isInverse : Bool
  quanto : String → Rat

/-- getMyTrades(contract, limit, since): the trades of one contract not
older than the since timestamp, truncated to the page limit. -/
def getMyTrades (S : Snapshot) (contract : String) (limit : Nat) (since : Int) : List ExTrade :=
  (S.trades.filter (fun t => decide (t.contract = contract) && decide (since ≤ t.timestamp))).take limit

/-- Membership of an order id in the exchange order map built by
checkTriggeredOrders (orders without an id are filtered out before the
map is built). -/
def exOrderPresent (S : Snapshot) (oid : String) : Bool :=
  (S.orders.filter (fun e => decide (e.id ≠ ""))).any (fun e => decide (e.id = oid))

/-- Math.abs on the embedded rationals. -/
def ratAbs (q : Rat) : Rat :=
  if q < 0 then -q else q

/-- The embedded absolute value agrees with the library one. -/
theorem ratAbs_eq_abs (q : Rat) : ratAbs q = |q| := by
  rcases le_or_lt 0 q with h | h
  · rw [ratAbs, if_neg (not_lt.mpr h), abs_of_nonneg h]
  · rw [ratAbs, if_pos h, abs_of_neg h]

/-- Whether the exchange reports a nonzero-size position for the
contract of a symbol; used both for the cycle position map and for the
re-check inside handleTriggeredOrder. -/
def exPositionExists (G : Gateway) (S : Snapshot) (symbol : String) : Bool :=
  S.positions.any (fun p => decide (p.contract = G.normalize symbol) && decide (0 < ratAbs p.size))

/-- A single ledger write statement executed by the monitor. -/
inductive Write
  | updateOrderId (oldId newId : String)
  | updateOrderStatus (oid : String) (st : OrderStatus)
  | deletePosition (symbol : String) (side : Side)
  | insertTrade (t : TradeRow)
  | insertCloseEvent (e : CloseEventRow)
  | insertInconsistent (r : InconsistentRow)
deriving DecidableEq, Repr

/-- Effect of one write on one price_orders row.  UPDATE statements
touch every row whose order_id matches; the status update also stamps
updated_at and sets or clears triggered_at, as updateOrderStatus does. -/
def rowMap (now : Int) (w : Write) (r : DBPriceOrder) : DBPriceOrder :=
  match w with
  | Write.updateOrderStatus oid st =>
      if r.order_id = oid then
        { r with status := st, updated_at := now,
                 triggered_at := if st = OrderStatus.triggered then some now else none }
      else r
  | Write.updateOrderId oldId newId =>
      if r.order_id = oldId then { r with order_id := newId, updated_at := now } else r
  | _ => r

/-- Effect of one write statement on the ledger. -/
def applyWrite (now : Int) (L : Ledger) (w : Write) : Ledger :=
  { positions :=
      match w with
      | Write.deletePosition s sd =>
          L.positions.filter (fun p => !(decide (p.symbol = s) && decide (p.side = sd)))
      | _ => L.positions,
    priceOrders := L.priceOrders.map (rowMap now w),
    trades := match w with | Write.insertTrade t => L.trades ++ [t] | _ => L.trades,
    closeEvents := match w with | Write.insertCloseEvent e => L.closeEvents ++ [e] | _ => L.closeEvents,
    inconsistent := match w with | Write.insertInconsistent r => L.inconsistent ++ [r] | _ => L.inconsistent }

/-- Effect of a sequence of writes, first to last. -/
def applyWrites (now : Int) (L : Ledger) (ws : List Write) : Ledger :=
  ws.foldl (applyWrite now) L

/-- The cumulative effect of a write sequence on one price_orders row. -/
def chain (now : Int) (ws : List Write) (r : DBPriceOrder) : DBPriceOrder :=
  ws.foldl (fun x w => rowMap now w x) r

/-- The price-tolerance test of the monitor, parameterized by the
tolerance percentage (0.1 in findCloseTrade, 0.2 in the quick
pre-check of handleTriggeredOrder).  A stop-loss on a long accepts a
fill at or below trigger plus tolerance, a take-profit on a long at or
above trigger minus tolerance, mirrored for shorts. -/
def priceMatchesTol (tolPct : Rat) (o : DBPriceOrder) (price : Rat) : Bool :=
  let tol := o.trigger_price * (tolPct / 100)
  match o.type, o.side with
  | OrderKind.stop_loss, Side.long => decide (price ≤ o.trigger_price + tol)
  | OrderKind.stop_loss, Side.short => decide (o.trigger_price - tol ≤ price)
  | OrderKind.take_profit, Side.long => decide (o.trigger_price - tol ≤ price)
  | OrderKind.take_profit, Side.short => decide (price ≤ o.trigger_price + tol)

/-- A fill is in the close direction for a position: sells close longs,
buys close shorts. -/
def closeDirection (side : Side) (size : Rat) : Bool :=
  match side with
  | Side.long => decide (size < 0)
  | Side.short => decide (0 < size)

/-- The candidate close trades of findCloseTrade: trades of the order
symbol from the 500-deep page, at or after creation minus the 5 s
tolerance, within 24 h of creation, in the close direction, passing
the 0.1 percent price tolerance. -/
def closeCandidates (G : Gateway) (S : Snapshot) (o : DBPriceOrder) : List ExTrade :=
  let contract := G.normalize o.symbol
  let searchStart := o.created_at - 5000
  (getMyTrades S contract 500 searchStart).filter (fun t =>
    decide (searchStart ≤ t.timestamp) &&
    decide (t.timestamp - o.created_at ≤ 86400000) &&
    closeDirection o.side t.size &&
    priceMatchesTol (1/10) o t.price)

/-- findCloseTrade: the candidate with the earliest timestamp, if any.
Each retry attempt re-queries the same snapshot, so the retry loop is
equivalent to one attempt. -/
def findCloseTrade (G : Gateway) (S : Snapshot) (o : DBPriceOrder) : Option ExTrade :=
  match closeCandidates G S o with
  | [] => none
  | h :: rest => some (rest.foldl (fun a c => if c.timestamp < a.timestamp then c else a) h)

/-- The quick price pre-check at the top of handleTriggeredOrder: fetch
the light 100-deep trade page, keep close-direction trades after the
tolerance window start, and if any exist, reject (skip the order)
when the latest one fails the 0.2 percent tolerance test. -/
def precheckRejects (G : Gateway) (S : Snapshot) (o : DBPriceOrder) : Bool :=
  let contract := G.normalize o.symbol
  let searchStart := o.created_at - 5000
  let closeTrades := (getMyTrades S contract 100 searchStart).filter (fun t =>
    decide (searchStart ≤ t.timestamp) && closeDirection o.side t.size)
  match closeTrades with
  | [] => false
  | h :: rest =>
      let latest := rest.foldl (fun a c => if a.timestamp < c.timestamp then c else a) h
      !(priceMatchesTol (2/10) o latest.price)

/-- Whether an exchange order's trigger rule matches the kind and side
of a ledger conditional order: stop-loss uses rule 2 for longs and 1
for shorts, take-profit the opposite. -/
def ruleMatches (o : DBPriceOrder) (e : ExOrder) : Bool :=
  match e.rule with
  | some r =>
      match o.type with
      | OrderKind.stop_loss => if o.side = Side.long then decide (r = 2) else decide (r = 1)
      | OrderKind.take_profit => if o.side = Side.long then decide (r = 1) else decide (r = 2)
  | none => false

/-- The identifier drift repair candidate: among the exchange orders of
the same contract, the first whose trigger rule matches the order kind
and side; the rewrite happens only for a nonempty id different from
the stored one. -/
def repairCandidate (G : Gateway) (S : Snapshot) (o : DBPriceOrder) : Option String :=
  let contract := G.normalize o.symbol
  let contractOrders := S.orders.filter (fun e => decide (G.normalize e.contract = contract))
  match contractOrders.find? (fun e => ruleMatches o e) with
  | some e => if e.id ≠ "" ∧ e.id ≠ o.order_id then some e.id else none
  | none => none

/-- The opposite protective order: first active price_orders row with
the same symbol and side and the opposite kind (SELECT with LIMIT 1). -/
def findOpposite (L : Ledger) (o : DBPriceOrder) : Option String :=
  let oppositeType := match o.type with
    | OrderKind.stop_loss => OrderKind.take_profit
    | OrderKind.take_profit => OrderKind.stop_loss
  (L.priceOrders.find? (fun r =>
      decide (r.symbol = o.symbol) && decide (r.side = o.side) &&
      decide (r.type = oppositeType) && decide (r.status = OrderStatus.active))).map
    (fun r => r.order_id)

/-- The ledger writes of cancelOppositeOrderInDB: cancel the opposite
order status when it exists.  The best-effort exchange-side cancel is
not a ledger write. -/
def cancelOppositeWrites (L : Ledger) (o : DBPriceOrder) : List Write :=
  match findOpposite L o with
  | some oppId => [Write.updateOrderStatus oppId OrderStatus.cancelled]
  | none => []

/-- The position information handleTriggeredOrder needs for PnL: entry
price and leverage, from the positions row or from the latest open
trade fallback. -/
structure PosInfo where
  entry_price : Rat
  leverage : Nat
deriving DecidableEq, Repr

/-- findOpenTrade: the most recent open trade of the symbol and side
(SELECT ... ORDER BY timestamp DESC LIMIT 1). -/
def latestOpenTrade (L : Ledger) (symbol : String) (side : Side) : Option TradeRow :=
  match L.trades.filter (fun t =>
      decide (t.symbol = symbol) && decide (t.side = side) && decide (t.type = TradeKind.openK)) with
  | [] => none
  | h :: rest => some (rest.foldl (fun a c => if a.timestamp < c.timestamp then c else a) h)

/-- getPositionInfo with the open-trade fallback of handleTriggeredOrder. -/
def getPositionOrFallback (L : Ledger) (o : DBPriceOrder) : Option PosInfo :=
  match L.positions.find? (fun p => decide (p.symbol = o.symbol) && decide (p.side = o.side)) with
  | some p => some { entry_price := p.entry_price, leverage := p.leverage }
  | none =>
      match latestOpenTrade L o.symbol o.side with
      | some tr => some { entry_price := tr.price, leverage := tr.leverage }
      | none => none

/-- parseInt(position.leverage) with the fallback to 1. -/
def levOf (p : PosInfo) : Nat :=
  if p.leverage = 0 then 1 else p.leverage

/-- Position value used for the fee estimate: quantity times price,
with the quanto multiplier on inverse contracts. -/
def positionValueOf (G : Gateway) (o : DBPriceOrder) (t : ExTrade) : Rat :=
  let qty := ratAbs t.size
  if G.isInverse then qty * G.quanto (G.normalize o.symbol) * t.price
  else qty * t.price

/-- Open fee plus close fee, each 0.05 percent of position value. -/
def totalFeeOf (G : Gateway) (o : DBPriceOrder) (t : ExTrade) : Rat :=
  positionValueOf G o t * (5/10000) + positionValueOf G o t * (5/10000)

/-- Gross PnL via the gateway PnL function. -/
def grossPnlOf (G : Gateway) (o : DBPriceOrder) (p : PosInfo) (t : ExTrade) : Rat :=
  G.calcPnl p.entry_price t.price (ratAbs t.size) o.side (G.normalize o.symbol)

/-- Net PnL: gross minus both fees. -/
def netPnlOf (G : Gateway) (o : DBPriceOrder) (p : PosInfo) (t : ExTrade) : Rat :=
  grossPnlOf G o p t - totalFeeOf G o t

/-- Leveraged PnL percentage. -/
def pnlPercentOf (o : DBPriceOrder) (p : PosInfo) (t : ExTrade) : Rat :=
  (if o.side = Side.long then (t.price - p.entry_price) / p.entry_price * 100
   else (p.entry_price - t.price) / p.entry_price * 100) * (levOf p : Rat)

/-- The close trades row inserted by step 4 of the triggered commit.
The order_id column stores the fill id, falling back to the
conditional order id when the fill has none. -/
def closeTradeRow (G : Gateway) (now : Int) (o : DBPriceOrder) (p : PosInfo) (t : ExTrade) : TradeRow :=
  { order_id := if t.id = "" then o.order_id else t.id,
    symbol := o.symbol, side := o.side, type := TradeKind.closeK,
    price := t.price, quantity := ratAbs t.size, leverage := levOf p,
    pnl := netPnlOf G o p t, fee := totalFeeOf G o t,
    timestamp := now, status := "filled" }

/-- The position_close_events row inserted by step 5 of the triggered
commit: trigger_order_id is the conditional order id, close_trade_id
the fill id, and order_id the same fill id with the conditional order
fallback, matching the trades row. -/
def closeEventRow (G : Gateway) (now : Int) (o : DBPriceOrder) (p : PosInfo) (t : ExTrade) : CloseEventRow :=
  { symbol := o.symbol, side := o.side,
    close_reason := if o.type = OrderKind.stop_loss then "stop_loss_triggered" else "take_profit_triggered",
    trigger_type := "exchange_order",
    trigger_price := o.trigger_price, close_price := t.price,
    entry_price := p.entry_price, quantity := ratAbs t.size, leverage := levOf p,
    pnl := netPnlOf G o p t, pnl_percent := pnlPercentOf o p t, fee := totalFeeOf G o t,
    trigger_order_id := o.order_id, close_trade_id := t.id,
    order_id := if t.id = "" then o.order_id else t.id,
    created_at := now, processed := false }

/-- The inconsistent_states row of the ambiguous no-trade path
(operation price_order_triggered_no_trade): the exchange side
succeeded (position gone) and the database side could not record a
complete close.  The source interpolates order details into the
message text. -/
def noTradeRow (now : Int) (o : DBPriceOrder) : InconsistentRow :=
  { operation := "price_order_triggered_no_trade", symbol := o.symbol, side := o.side,
    exchange_success := true, db_success := false,
    exchange_order_id := o.order_id,
    error_message := "close trade record not found",
    created_at := now, resolved := false }

/-- The inconsistent_states row written when the triggered commit
rolls back (operation price_order_triggered).  The source stores the
thrown error message. -/
def triggeredFailRow (now : Int) (o : DBPriceOrder) : InconsistentRow :=
  { operation := "price_order_triggered", symbol := o.symbol, side := o.side,
    exchange_success := true, db_success := false,
    exchange_order_id := o.order_id,
    error_message := "transaction failed",
    created_at := now, resolved := false }

/-- Sequential execution of the statements of one transaction: each
step reads the in-transaction state and emits writes; a step at the
failing index aborts the whole transaction. -/
def txnGo (now : Int) (failAt : Option Nat) :
    List (Ledger → List Write) → Nat → Ledger → List Write → Option (Ledger × List Write)
  | [], _, L, acc => some (L, acc)
  | s :: rest, idx, L, acc =>
      if failAt = some idx then none
      else txnGo now failAt rest (idx + 1) (applyWrites now L (s L)) (acc ++ s L)

/-- BEGIN TRANSACTION / COMMIT / ROLLBACK: on success the accumulated
state stands; on failure the ledger reverts to its state before the
transaction began and the catch handler runs on it. -/
def runTransaction (now : Int) (L : Ledger) (steps : List (Ledger → List Write))
    (failAt : Option Nat) (onFail : Ledger → Ledger × List Write) : Ledger × List Write :=
  match txnGo now failAt steps 0 L [] with
  | some res => res
  | none => onFail L

/-- The five-step triggered commit of handleTriggeredOrder: delete the
position first, mark the order triggered, cancel the opposite order,
insert the close trade, insert the close event; on any failure the
transaction rolls back and one inconsistent_states row is written
outside it. -/
def commitTriggeredTxn (G : Gateway) (now : Int) (L : Ledger) (o : DBPriceOrder)
    (p : PosInfo) (t : ExTrade) (failAt : Option Nat) : Ledger × List Write :=
  runTransaction now L
    [fun _ => [Write.deletePosition o.symbol o.side],
     fun _ => [Write.updateOrderStatus o.order_id OrderStatus.triggered],
     fun Lc => cancelOppositeWrites Lc o,
     fun _ => [Write.insertTrade (closeTradeRow G now o p t)],
     fun _ => [Write.insertCloseEvent (closeEventRow G now o p t)]]
    failAt
    (fun L0 =>
      let w := Write.insertInconsistent (triggeredFailRow now o)
      (applyWrite now L0 w, [w]))

/-- The transaction of the severe no-trade path: mark the order
triggered, cancel the opposite order, delete the stale position, and
record the high-severity inconsistency; no close trade is inserted. -/
def ambiguousTxn (now : Int) (L : Ledger) (o : DBPriceOrder) : Ledger × List Write :=
  runTransaction now L
    [fun _ => [Write.updateOrderStatus o.order_id OrderStatus.triggered],
     fun Lc => cancelOppositeWrites Lc o,
     fun _ => [Write.deletePosition o.symbol o.side],
     fun _ => [Write.insertInconsistent (noTradeRow now o)]]
    none
    (fun L0 => (L0, []))

/-- handleTriggeredOrder: quick price pre-check, position lookup with
open-trade fallback, close-trade search, then one of the cancelled
path, the severe no-trade path, the degraded no-position path, or the
five-step triggered commit. -/
def handleTriggeredOrder (G : Gateway) (S : Snapshot) (now : Int) (L : Ledger)
    (o : DBPriceOrder) : Ledger × List Write :=
  if precheckRejects G S o then (L, [])
  else
    let position := getPositionOrFallback L o
    match findCloseTrade G S o with
    | none =>
        if exPositionExists G S o.symbol then
          let w := Write.updateOrderStatus o.order_id OrderStatus.cancelled
          (applyWrite now L w, [w])
        else ambiguousTxn now L o
    | some t =>
        match position with
        | none =>
            let w1 := Write.updateOrderStatus o.order_id OrderStatus.triggered
            let L1 := applyWrite now L w1
            let ws2 := cancelOppositeWrites L1 o
            (applyWrites now L1 ws2, w1 :: ws2)
        | some p => commitTriggeredTxn G now L o p t none

/-- One iteration of the checkTriggeredOrders loop for one active
order: presence tests against the snapshot maps, the identifier drift
repair, then the trigger decision. -/
def processOrder (G : Gateway) (S : Snapshot) (now : Int) (L : Ledger)
    (o : DBPriceOrder) : Ledger × List Write :=
  if exOrderPresent S o.order_id then (L, [])
  else if exPositionExists G S o.symbol then
    match repairCandidate G S o with
    | some newId =>
        let w := Write.updateOrderId o.order_id newId
        (applyWrite now L w, [w])
    | none =>
        match findCloseTrade G S o with
        | some _ => handleTriggeredOrder G S now L o
        | none => (L, [])
  else handleTriggeredOrder G S now L o

/-- The SELECT ordering of getActiveOrdersFromDB: by symbol ascending,
then creation time descending. -/
def ordLE (a b : DBPriceOrder) : Bool :=
  decide (a.symbol < b.symbol) || (decide (a.symbol = b.symbol) && decide (b.created_at ≤ a.created_at))

/-- Insertion into a list sorted by ordLE. -/
def insertSorted (a : DBPriceOrder) : List DBPriceOrder → List DBPriceOrder
  | [] => [a]
  | b :: rest => if ordLE a b then a :: b :: rest else b :: insertSorted a rest

/-- Sort by symbol, created_at descending. -/
def sortActives (l : List DBPriceOrder) : List DBPriceOrder :=
  l.foldr insertSorted []

/-- getActiveOrdersFromDB: the active rows, ordered. -/
def activeOrders (L : Ledger) : List DBPriceOrder :=
  sortActives (L.priceOrders.filter (fun r => decide (r.status = OrderStatus.active)))

/-- One iteration of the cycle fold: process an order against the
threaded ledger and append its writes. -/
def cycStep (G : Gateway) (S : Snapshot) (now : Int) (acc : Ledger × List Write)
    (o : DBPriceOrder) : Ledger × List Write :=
  ((processOrder G S now acc.1 o).1, acc.2 ++ (processOrder G S now acc.1 o).2)

/-- One full monitor cycle against one fixed snapshot: fetch the active
orders once, then process them sequentially, threading the ledger and
collecting every write performed. -/
def runCycle (G : Gateway) (S : Snapshot) (now : Int) (L : Ledger) : Ledger × List Write :=
  (activeOrders L).foldl (cycStep G S now) (L, [])

/-- A row of the generic system_config key/value table used as the
lease store. -/
structure SysConfigRow where
  key : String
  value : String
  updated_at : Int
deriving DecidableEq, Repr

/-- The fixed lease TTL of DistributedLock (LOCK_TIMEOUT_MS). -/
def lockTimeoutMs : Int := 30000

/-- SELECT value, updated_at FROM system_config WHERE key = ?. -/
def lockLookup (rows : List SysConfigRow) (key : String) : Option SysConfigRow :=
  rows.find? (fun r => decide (r.key = key))

/-- INSERT OR REPLACE of the lease row. -/
def upsertLock (rows : List SysConfigRow) (key holder : String) (now : Int) : List SysConfigRow :=
  rows.filter (fun r => !(decide (r.key = key))) ++ [{ key := key, value := holder, updated_at := now }]

/-- DistributedLock.tryAcquire: refresh an unexpired own lease, refuse
an unexpired foreign lease, steal an expired one, take a free key. -/
def tryAcquire (rows : List SysConfigRow) (key holder : String) (now : Int) :
    Bool × List SysConfigRow :=
  match lockLookup rows key with
  | some r =>
      if now - r.updated_at < lockTimeoutMs then
        if r.value = holder then
          (true, rows.map (fun q => if q.key = key then { q with updated_at := now } else q))
        else (false, rows)
      else (true, upsertLock rows key holder now)
  | none => (true, upsertLock rows key holder now)

/-- The in-transaction ledger state against which step 3 of the
triggered commit looks up the opposite protective order: after the
position delete and the status update of the triggering order. -/
def commitOppositeLookupState (now : Int) (L : Ledger) (o : DBPriceOrder) : Ledger :=
  applyWrite now (applyWrite now L (Write.deletePosition o.symbol o.side))
    (Write.updateOrderStatus o.order_id OrderStatus.triggered)

/-- C1: when the monitor commits a triggered classification with a
found close trade and known position info, and an opposite protective
order exists, the transaction performs exactly five ledger mutations
in this order: delete the Position row first, mark the triggering
order triggered, mark the opposite order cancelled, insert the close
Trade row, insert the PositionCloseEvent row; in particular the
Position delete precedes every other write of the transaction. -/
theorem commit_triggered_write_order (G : Gateway) (now : Int) (L : Ledger)
    (o : DBPriceOrder) (p : PosInfo) (t : ExTrade) (oppId : String)
    (h : findOpposite (commitOppositeLookupState now L o) o = some oppId) :
    (commitTriggeredTxn G now L o p t none).2 =
      [Write.deletePosition o.symbol o.side,
       Write.updateOrderStatus o.order_id OrderStatus.triggered,
       Write.updateOrderStatus oppId OrderStatus.cancelled,
       Write.insertTrade (closeTradeRow G now o p t),
       Write.insertCloseEvent (closeEventRow G now o p t)] := by
  simp only [commitTriggeredTxn, runTransaction, txnGo, applyWrites, List.foldl,
    commitOppositeLookupState] at h ⊢
  simp [cancelOppositeWrites, h]

/-- Writes that are not UPDATE statements on price_orders leave every
price_orders row unchanged. -/
theorem map_rowMap_insertInconsistent (now : Int) (x : InconsistentRow) (l : List DBPriceOrder) :
    l.map (rowMap now (Write.insertInconsistent x)) = l :=
  List.map_id' l

/-- C2: if any of the five write steps of a triggered-order commit
fails, every ledger change of the transaction is rolled back - the
positions, price_orders, trades and position_close_events tables are
exactly as before the transaction began - and one
InconsistentStateRecord is appended with exchange-success true and
ledger-success false. -/
theorem commit_triggered_rollback (G : Gateway) (now : Int) (L : Ledger)
    (o : DBPriceOrder) (p : PosInfo) (t : ExTrade) (i : Fin 5) :
    (commitTriggeredTxn G now L o p t (some i.val)).1.positions = L.positions ∧
    (commitTriggeredTxn G now L o p t (some i.val)).1.priceOrders = L.priceOrders ∧
    (commitTriggeredTxn G now L o p t (some i.val)).1.trades = L.trades ∧
    (commitTriggeredTxn G now L o p t (some i.val)).1.closeEvents = L.closeEvents ∧
    (commitTriggeredTxn G now L o p t (some i.val)).1.inconsistent
        = L.inconsistent ++ [triggeredFailRow now o] ∧
    (triggeredFailRow now o).exchange_success = true ∧
    (triggeredFailRow now o).db_success = false := by
  fin_cases i <;>
    simp [commitTriggeredTxn, runTransaction, txnGo, applyWrite, map_rowMap_insertInconsistent,
      triggeredFailRow]

/-- Concrete gateway for witnesses: identity normalization, linear PnL
on a non-inverse contract. -/
def wG : Gateway :=
  { normalize := fun s => s, calcPnl := fun e x q _ _ => (x - e) * q,
    isInverse := false, quanto := fun _ => 1 }

/-- Concrete stop-loss order for witnesses: long BTC, trigger 49000,
created at t = 1000000 ms. -/
def wOrder : DBPriceOrder :=
  { order_id := "SL1", symbol := "BTC", side := Side.long, type := OrderKind.stop_loss,
    trigger_price := 49000, quantity := 1, created_at := 1000000,
    status := OrderStatus.active, updated_at := 0, triggered_at := none }

/-- Concrete opposite take-profit order for witnesses. -/
def wTP : DBPriceOrder :=
  { wOrder with order_id := "TP1", type := OrderKind.take_profit, trigger_price := 52000 }

/-- Concrete position row for witnesses. -/
def wPos : DBPosition :=
  { symbol := "BTC", side := Side.long, entry_price := 50000, quantity := 1, leverage := 2 }

/-- Concrete position info for witnesses. -/
def wPosInfo : PosInfo := { entry_price := 50000, leverage := 2 }

/-- Concrete close fill for witnesses: a sell at 48950, five seconds
after order creation. -/
def wTrade : ExTrade :=
  { id := "F1", contract := "BTC", price := 48950, size := -1, fee := 2, timestamp := 1005000 }

/-- Concrete ledger for witnesses: one position protected by the
stop-loss and take-profit pair. -/
def wLedger : Ledger :=
  { positions := [wPos], priceOrders := [wOrder, wTP], trades := [], closeEvents := [],
    inconsistent := [] }

/-- C1 witness: at the concrete fixture the opposite lookup finds TP1
and the commit emits exactly the five writes in order. -/
theorem commit_triggered_write_order_witness :
    findOpposite (commitOppositeLookupState 77 wLedger wOrder) wOrder = some "TP1" ∧
    (commitTriggeredTxn wG 77 wLedger wOrder wPosInfo wTrade none).2 =
      [Write.deletePosition wOrder.symbol wOrder.side,
       Write.updateOrderStatus wOrder.order_id OrderStatus.triggered,
       Write.updateOrderStatus "TP1" OrderStatus.cancelled,
       Write.insertTrade (closeTradeRow wG 77 wOrder wPosInfo wTrade),
       Write.insertCloseEvent (closeEventRow wG 77 wOrder wPosInfo wTrade)] :=
  ⟨by decide, commit_triggered_write_order wG 77 wLedger wOrder wPosInfo wTrade "TP1" (by decide)⟩

/-- Concrete close fill at exactly the trigger price, for the
price-band counterexample. -/
def cT6 : ExTrade :=
  { id := "F2", contract := "BTC", price := 49000, size := -1, fee := 1, timestamp := 1004000 }

/-- Snapshot holding only the at-trigger fill. -/
def cS6 : Snapshot := { orders := [], positions := [], trades := [cT6] }

/-- C6 counterexample: for a stop-loss on a long position the trade
search accepts a fill at the trigger price itself, which is not at or
below trigger minus tolerance; the code bound is trigger plus
tolerance. -/
theorem closeCandidates_price_band_counterexample :
    wOrder.type = OrderKind.stop_loss ∧ wOrder.side = Side.long ∧
    findCloseTrade wG cS6 wOrder = some cT6 ∧
    ¬(cT6.price ≤ wOrder.trigger_price - wOrder.trigger_price * ((1/10) / 100)) := by
  refine ⟨rfl, rfl, ?_, ?_⟩
  · norm_num [findCloseTrade, closeCandidates, getMyTrades, priceMatchesTol, closeDirection,
      cS6, cT6, wOrder, wG, List.filter]
  · norm_num [cT6, wOrder]

/-- C6 amended: membership in the candidate set of the trade search is
exactly the page membership, the time-window tests, the close
direction, and the 0.1 percent price tolerance oriented as the code
orients it: a stop-loss on a long accepts a fill at or below trigger
plus tolerance, a take-profit on a long at or above trigger minus
tolerance, mirrored for shorts. -/
theorem closeCandidates_price_band (G : Gateway) (S : Snapshot) (o : DBPriceOrder) (t : ExTrade) :
    t ∈ closeCandidates G S o ↔
      (t ∈ getMyTrades S (G.normalize o.symbol) 500 (o.created_at - 5000) ∧
       o.created_at - 5000 ≤ t.timestamp ∧
       t.timestamp - o.created_at ≤ 86400000 ∧
       (o.side = Side.long → t.size < 0) ∧
       (o.side = Side.short → 0 < t.size) ∧
       (o.type = OrderKind.stop_loss → o.side = Side.long →
          t.price ≤ o.trigger_price + o.trigger_price * ((1/10) / 100)) ∧
       (o.type = OrderKind.stop_loss → o.side = Side.short →
          o.trigger_price - o.trigger_price * ((1/10) / 100) ≤ t.price) ∧
       (o.type = OrderKind.take_profit → o.side = Side.long →
          o.trigger_price - o.trigger_price * ((1/10) / 100) ≤ t.price) ∧
       (o.type = OrderKind.take_profit → o.side = Side.short →
          t.price ≤ o.trigger_price + o.trigger_price * ((1/10) / 100))) := by
  cases h1 : o.side <;> cases h2 : o.type <;>
    simp [closeCandidates, List.mem_filter, closeDirection, priceMatchesTol, h1, h2,
      and_assoc]

/-- C6 amended witness: the at-trigger fill is a candidate of the
concrete search, through the characterization. -/
theorem closeCandidates_price_band_witness :
    cT6 ∈ closeCandidates wG cS6 wOrder ↔
      (cT6 ∈ getMyTrades cS6 (wG.normalize wOrder.symbol) 500 (wOrder.created_at - 5000) ∧
       wOrder.created_at - 5000 ≤ cT6.timestamp ∧
       cT6.timestamp - wOrder.created_at ≤ 86400000 ∧
       (wOrder.side = Side.long → cT6.size < 0) ∧
       (wOrder.side = Side.short → 0 < cT6.size) ∧
       (wOrder.type = OrderKind.stop_loss → wOrder.side = Side.long →
          cT6.price ≤ wOrder.trigger_price + wOrder.trigger_price * ((1/10) / 100)) ∧
       (wOrder.type = OrderKind.stop_loss → wOrder.side = Side.short →
          wOrder.trigger_price - wOrder.trigger_price * ((1/10) / 100) ≤ cT6.price) ∧
       (wOrder.type = OrderKind.take_profit → wOrder.side = Side.long →
          wOrder.trigger_price - wOrder.trigger_price * ((1/10) / 100) ≤ cT6.price) ∧
       (wOrder.type = OrderKind.take_profit → wOrder.side = Side.short →
          cT6.price ≤ wOrder.trigger_price + wOrder.trigger_price * ((1/10) / 100))) :=
  closeCandidates_price_band wG cS6 wOrder cT6

/-- Refreshing the matching row's timestamp commutes with the lease
lookup. -/
theorem lockLookup_refresh (rows : List SysConfigRow) (key : String) (now : Int)
    (r : SysConfigRow) (h : lockLookup rows key = some r) :
    lockLookup (rows.map (fun q => if q.key = key then { q with updated_at := now } else q)) key
      = some { r with updated_at := now } := by
  induction rows with
  | nil => simp [lockLookup] at h
  | cons hd tl ih =>
      by_cases hk : hd.key = key
      · have hr : hd = r := by
          simpa [lockLookup, List.find?_cons_of_pos, hk] using h
        subst hr
        simp [lockLookup, List.find?_cons_of_pos, hk]
      · have h2 : lockLookup tl key = some r := by
          simpa [lockLookup, List.find?_cons_of_neg, hk] using h
        simpa [lockLookup, List.find?_cons_of_neg, hk] using ih h2

/-- After an INSERT OR REPLACE of the lease row, the lookup returns
exactly the new row. -/
theorem lockLookup_upsert (rows : List SysConfigRow) (key holder : String) (now : Int) :
    lockLookup (upsertLock rows key holder now) key
      = some { key := key, value := holder, updated_at := now } := by
  induction rows with
  | nil => simp [lockLookup, upsertLock, List.find?]
  | cons hd tl ih =>
      by_cases hk : hd.key = key
      · simpa [upsertLock, List.filter_cons, hk] using ih
      · simp only [upsertLock, List.filter_cons] at ih ⊢
        simp [lockLookup, List.find?_cons_of_neg, hk] at ih ⊢

/-- C7: tryAcquire returns true when no lease row exists for the key;
when the recorded holder equals the caller and the lease age is within
the 30 second TTL it returns true and refreshes the lease timestamp;
when the age exceeds the TTL it returns true and overwrites the lease
with the caller; and it returns false, leaving the store unchanged,
when a lease younger than the TTL is held by a different holder. -/
theorem tryAcquire_contract (rows : List SysConfigRow) (key holder : String) (now : Int) :
    (lockLookup rows key = none → (tryAcquire rows key holder now).1 = true) ∧
    (∀ r, lockLookup rows key = some r → now - r.updated_at < lockTimeoutMs →
        r.value = holder →
        (tryAcquire rows key holder now).1 = true ∧
        lockLookup (tryAcquire rows key holder now).2 key
          = some { r with updated_at := now }) ∧
    (∀ r, lockLookup rows key = some r → lockTimeoutMs < now - r.updated_at →
        (tryAcquire rows key holder now).1 = true ∧
        lockLookup (tryAcquire rows key holder now).2 key
          = some { key := key, value := holder, updated_at := now }) ∧
    (∀ r, lockLookup rows key = some r → now - r.updated_at < lockTimeoutMs →
        r.value ≠ holder →
        (tryAcquire rows key holder now).1 = false ∧
        (tryAcquire rows key holder now).2 = rows) := by
  refine ⟨?_, ?_, ?_, ?_⟩
  · intro h
    simp [tryAcquire, h]
  · intro r h hage hv
    have heq : tryAcquire rows key holder now
        = (true, rows.map (fun q => if q.key = key then { q with updated_at := now } else q)) := by
      simp [tryAcquire, h, hage, hv]
    rw [heq]
    exact ⟨rfl, lockLookup_refresh rows key now r h⟩
  · intro r h hage
    have hage2 : ¬(now - r.updated_at < lockTimeoutMs) := by omega
    have heq : tryAcquire rows key holder now = (true, upsertLock rows key holder now) := by
      simp [tryAcquire, h, hage2]
    rw [heq]
    exact ⟨rfl, lockLookup_upsert rows key holder now⟩
  · intro r h hage hv
    have heq : tryAcquire rows key holder now = (false, rows) := by
      simp [tryAcquire, h, hage, hv]
    rw [heq]
    exact ⟨rfl, rfl⟩

/-- Concrete lease store for the C7 witness: one lease taken by the
health check at time 0. -/
def wLock : List SysConfigRow :=
  [{ key := "tp_lock_BTC_1", value := "health-check", updated_at := 0 }]

/-- C7 witness: forty seconds later the decision loop steals the
expired lease. -/
theorem tryAcquire_contract_witness :
    (tryAcquire wLock "tp_lock_BTC_1" "ai-agent" 40000).1 = true ∧
    lockLookup (tryAcquire wLock "tp_lock_BTC_1" "ai-agent" 40000).2 "tp_lock_BTC_1"
      = some { key := "tp_lock_BTC_1", value := "ai-agent", updated_at := 40000 } :=
  (tryAcquire_contract wLock "tp_lock_BTC_1" "ai-agent" 40000).2.2.1
    { key := "tp_lock_BTC_1", value := "health-check", updated_at := 0 }
    (by decide) (by decide)

/-- The earliest-pick fold of findCloseTrade returns a member of the
candidate list whose timestamp is minimal. -/
theorem foldl_earliest (rest : List ExTrade) :
    ∀ h : ExTrade,
      (rest.foldl (fun a c => if c.timestamp < a.timestamp then c else a) h) ∈ h :: rest ∧
      ∀ u ∈ h :: rest,
        (rest.foldl (fun a c => if c.timestamp < a.timestamp then c else a) h).timestamp
          ≤ u.timestamp := by
  induction rest with
  | nil => intro h; simp
  | cons c cs ih =>
      intro h
      have step : (c :: cs).foldl (fun a c => if c.timestamp < a.timestamp then c else a) h
          = cs.foldl (fun a c => if c.timestamp < a.timestamp then c else a)
              (if c.timestamp < h.timestamp then c else h) := rfl
      rcases ih (if c.timestamp < h.timestamp then c else h) with ⟨hmem, hmin⟩
      constructor
      · rw [step]
        rcases List.mem_cons.mp hmem with heq | hin
        · rw [heq]
          by_cases hc : c.timestamp < h.timestamp
        
          · simp [hc]
          · simp [hc]
        · exact List.mem_cons_of_mem _ (List.mem_cons_of_mem _ hin)
      · intro u hu
        rw [step]
        rcases List.mem_cons.mp hu with hq | hu2
        · subst hq
          refine le_trans (hmin _ (List.mem_cons_self _ _)) ?_
          by_cases hc : c.timestamp < u.timestamp
          · simp [hc]
            exact le_of_lt hc
          · simp [hc]
        · rcases List.mem_cons.mp hu2 with hq | hu3
          · subst hq
            refine le_trans (hmin _ (List.mem_cons_self _ _)) ?_
            by_cases hc : u.timestamp < h.timestamp
            · simp [hc]
            · simp [hc]
              exact le_of_not_lt hc
          · exact hmin u (List.mem_cons_of_mem _ hu3)

/-- C8: when the trade search succeeds, the returned trade is a
candidate, its timestamp is minimal among all candidates (all of which
lie at or after the tolerance window start), and the fill price
recorded in the close Trade and PositionCloseEvent rows of the commit
is that trade's price. -/
theorem findCloseTrade_returns_earliest (G : Gateway) (S : Snapshot) (o : DBPriceOrder)
    (t : ExTrade) (now : Int) (p : PosInfo)
    (h : findCloseTrade G S o = some t) :
    t ∈ closeCandidates G S o ∧
    (∀ u ∈ closeCandidates G S o, t.timestamp ≤ u.timestamp) ∧
    o.created_at - 5000 ≤ t.timestamp ∧
    (closeTradeRow G now o p t).price = t.price ∧
    (closeEventRow G now o p t).close_price = t.price := by
  rcases hc : closeCandidates G S o with _ | ⟨h0, rest⟩
  · rw [findCloseTrade, hc] at h
    exact absurd h (by simp)
  · rw [findCloseTrade, hc] at h
    have ht : t = rest.foldl (fun a c => if c.timestamp < a.timestamp then c else a) h0 := by
      simpa using h.symm
    rcases foldl_earliest rest h0 with ⟨hmem, hmin⟩
    rw [← ht] at hmem hmin
    refine ⟨hmem, hmin, ?_, rfl, rfl⟩
    have hmem2 : t ∈ closeCandidates G S o := by rw [hc]; exact hmem
    have := List.mem_filter.mp (by rw [closeCandidates] at hmem2; exact hmem2)
    rcases this with ⟨_, hpred⟩
    simp only [Bool.and_eq_true, decide_eq_true_eq] at hpred
    exact hpred.1.1.1

/-- A later matching fill, for the earliest-pick witness. -/
def tL8 : ExTrade :=
  { id := "L", contract := "BTC", price := 48900, size := -1, fee := 1, timestamp := 1010000 }

/-- An earlier matching fill, for the earliest-pick witness. -/
def tE8 : ExTrade :=
  { id := "E", contract := "BTC", price := 48950, size := -1, fee := 1, timestamp := 1004000 }

/-- Snapshot with two matching fills, later one listed first. -/
def cS8 : Snapshot := { orders := [], positions := [], trades := [tL8, tE8] }

/-- C8 witness: with two matching candidates the search returns the
earlier one, and the commit rows would carry its price. -/
theorem findCloseTrade_returns_earliest_witness :
    tE8 ∈ closeCandidates wG cS8 wOrder ∧
    (∀ u ∈ closeCandidates wG cS8 wOrder, tE8.timestamp ≤ u.timestamp) ∧
    wOrder.created_at - 5000 ≤ tE8.timestamp ∧
    (closeTradeRow wG 77 wOrder wPosInfo tE8).price = tE8.price ∧
    (closeEventRow wG 77 wOrder wPosInfo tE8).close_price = tE8.price :=
  findCloseTrade_returns_earliest wG cS8 wOrder tE8 77 wPosInfo
    (by norm_num [findCloseTrade, closeCandidates, getMyTrades, priceMatchesTol, closeDirection,
      cS8, tL8, tE8, wOrder, wG, List.filter])

/-- The opposite-cancel step writes either nothing or exactly one
cancelled status update. -/
theorem cancelOppositeWrites_shape (L : Ledger) (o : DBPriceOrder) :
    cancelOppositeWrites L o = [] ∨
    ∃ oppId, cancelOppositeWrites L o = [Write.updateOrderStatus oppId OrderStatus.cancelled] := by
  rcases h : findOpposite L o with _ | oppId
  · left
    simp [cancelOppositeWrites, h]
  · right
    exact ⟨oppId, by simp [cancelOppositeWrites, h]⟩

/-- Splitting a write sequence splits its application. -/
theorem applyWrites_append (now : Int) (L : Ledger) (xs ys : List Write) :
    applyWrites now L (xs ++ ys) = applyWrites now (applyWrites now L xs) ys := by
  simp [applyWrites, List.foldl_append]

/-- The write list of the severe no-trade transaction, and the fact
that its resulting ledger is the application of that list. -/
theorem ambiguousTxn_eq (now : Int) (L : Ledger) (o : DBPriceOrder) :
    ambiguousTxn now L o =
      (applyWrites now L
        (Write.updateOrderStatus o.order_id OrderStatus.triggered ::
          (cancelOppositeWrites
              (applyWrite now L (Write.updateOrderStatus o.order_id OrderStatus.triggered)) o ++
            [Write.deletePosition o.symbol o.side,
             Write.insertInconsistent (noTradeRow now o)])),
       Write.updateOrderStatus o.order_id OrderStatus.triggered ::
         (cancelOppositeWrites
             (applyWrite now L (Write.updateOrderStatus o.order_id OrderStatus.triggered)) o ++
           [Write.deletePosition o.symbol o.side,
            Write.insertInconsistent (noTradeRow now o)])) := by
  simp [ambiguousTxn, runTransaction, txnGo, applyWrites_append, applyWrites]

/-- The write list of the five-step triggered commit, and the fact
that its resulting ledger is the application of that list. -/
theorem commitTriggeredTxn_eq (G : Gateway) (now : Int) (L : Ledger) (o : DBPriceOrder)
    (p : PosInfo) (t : ExTrade) :
    commitTriggeredTxn G now L o p t none =
      (applyWrites now L
        (Write.deletePosition o.symbol o.side ::
          Write.updateOrderStatus o.order_id OrderStatus.triggered ::
            (cancelOppositeWrites (commitOppositeLookupState now L o) o ++
              [Write.insertTrade (closeTradeRow G now o p t),
               Write.insertCloseEvent (closeEventRow G now o p t)])),
       Write.deletePosition o.symbol o.side ::
         Write.updateOrderStatus o.order_id OrderStatus.triggered ::
           (cancelOppositeWrites (commitOppositeLookupState now L o) o ++
             [Write.insertTrade (closeTradeRow G now o p t),
              Write.insertCloseEvent (closeEventRow G now o p t)])) := by
  simp [commitTriggeredTxn, runTransaction, txnGo, commitOppositeLookupState,
    applyWrites_append, applyWrites]

/-- Branch equation: an order still present on the exchange is left
alone. -/
theorem processOrder_orderPresent (G : Gateway) (S : Snapshot) (now : Int) (L : Ledger)
    (o : DBPriceOrder) (h1 : exOrderPresent S o.order_id = true) :
    processOrder G S now L o = (L, []) := by
  simp [processOrder, h1]

/-- Branch equation: the identifier drift repair fires. -/
theorem processOrder_repair (G : Gateway) (S : Snapshot) (now : Int) (L : Ledger)
    (o : DBPriceOrder) (newId : String)
    (h1 : exOrderPresent S o.order_id = false)
    (h2 : exPositionExists G S o.symbol = true)
    (h3 : repairCandidate G S o = some newId) :
    processOrder G S now L o
      = (applyWrite now L (Write.updateOrderId o.order_id newId),
         [Write.updateOrderId o.order_id newId]) := by
  simp [processOrder, h1, h2, h3]

/-- Branch equation: order gone, position still on the exchange, no
repair and no close trade found: the monitor logs and defers, writing
nothing. -/
theorem processOrder_silent (G : Gateway) (S : Snapshot) (now : Int) (L : Ledger)
    (o : DBPriceOrder)
    (h1 : exOrderPresent S o.order_id = false)
    (h2 : exPositionExists G S o.symbol = true)
    (h3 : repairCandidate G S o = none)
    (h4 : findCloseTrade G S o = none) :
    processOrder G S now L o = (L, []) := by
  simp [processOrder, h1, h2, h3, h4]

/-- Branch equation: order gone, position present, a close trade found:
the order goes to triggered handling. -/
theorem processOrder_posIn_found (G : Gateway) (S : Snapshot) (now : Int) (L : Ledger)
    (o : DBPriceOrder) (t : ExTrade)
    (h1 : exOrderPresent S o.order_id = false)
    (h2 : exPositionExists G S o.symbol = true)
    (h3 : repairCandidate G S o = none)
    (h4 : findCloseTrade G S o = some t) :
    processOrder G S now L o = handleTriggeredOrder G S now L o := by
  simp [processOrder, h1, h2, h3, h4]

/-- Branch equation: order gone and position gone: straight to
triggered handling, with no repair attempt. -/
theorem processOrder_noPos (G : Gateway) (S : Snapshot) (now : Int) (L : Ledger)
    (o : DBPriceOrder)
    (h1 : exOrderPresent S o.order_id = false)
    (h2 : exPositionExists G S o.symbol = false) :
    processOrder G S now L o = handleTriggeredOrder G S now L o := by
  simp [processOrder, h1, h2]

/-- Branch equation: the quick price pre-check vetoes the order, so
handling writes nothing. -/
theorem handle_reject (G : Gateway) (S : Snapshot) (now : Int) (L : Ledger)
    (o : DBPriceOrder) (h : precheckRejects G S o = true) :
    handleTriggeredOrder G S now L o = (L, []) := by
  simp [handleTriggeredOrder, h]

/-- Branch equation: no close trade but the exchange still reports the
position: the order is marked cancelled and nothing else changes. -/
theorem handle_cancelled (G : Gateway) (S : Snapshot) (now : Int) (L : Ledger)
    (o : DBPriceOrder)
    (h3 : precheckRejects G S o = false)
    (h4 : findCloseTrade G S o = none)
    (h2 : exPositionExists G S o.symbol = true) :
    handleTriggeredOrder G S now L o
      = (applyWrite now L (Write.updateOrderStatus o.order_id OrderStatus.cancelled),
         [Write.updateOrderStatus o.order_id OrderStatus.cancelled]) := by
  simp [handleTriggeredOrder, h3, h4, h2]

/-- Branch equation: no close trade and no position on the exchange:
the severe no-trade transaction runs. -/
theorem handle_ambiguous (G : Gateway) (S : Snapshot) (now : Int) (L : Ledger)
    (o : DBPriceOrder)
    (h3 : precheckRejects G S o = false)
    (h4 : findCloseTrade G S o = none)
    (h2 : exPositionExists G S o.symbol = false) :
    handleTriggeredOrder G S now L o = ambiguousTxn now L o := by
  simp [handleTriggeredOrder, h3, h4, h2]

/-- Branch equation: close trade found but no position info anywhere:
degraded handling marks the order triggered and cancels the opposite
order, outside a transaction. -/
theorem handle_noPosition (G : Gateway) (S : Snapshot) (now : Int) (L : Ledger)
    (o : DBPriceOrder) (t : ExTrade)
    (h3 : precheckRejects G S o = false)
    (h4 : findCloseTrade G S o = some t)
    (hp : getPositionOrFallback L o = none) :
    handleTriggeredOrder G S now L o
      = (applyWrites now
          (applyWrite now L (Write.updateOrderStatus o.order_id OrderStatus.triggered))
          (cancelOppositeWrites
            (applyWrite now L (Write.updateOrderStatus o.order_id OrderStatus.triggered)) o),
         Write.updateOrderStatus o.order_id OrderStatus.triggered ::
           cancelOppositeWrites
             (applyWrite now L (Write.updateOrderStatus o.order_id OrderStatus.triggered)) o) := by
  simp [handleTriggeredOrder, h3, h4, hp]

/-- Branch equation: close trade found and position info known: the
five-step commit runs. -/
theorem handle_commit (G : Gateway) (S : Snapshot) (now : Int) (L : Ledger)
    (o : DBPriceOrder) (t : ExTrade) (p : PosInfo)
    (h3 : precheckRejects G S o = false)
    (h4 : findCloseTrade G S o = some t)
    (hp : getPositionOrFallback L o = some p) :
    handleTriggeredOrder G S now L o = commitTriggeredTxn G now L o p t none := by
  simp [handleTriggeredOrder, h3, h4, hp]

/-- C3 amended: when an active order is gone from the exchange, its
position is gone too, the exhaustive trade search finds nothing, and
the quick pre-check does not veto the order, the monitor removes the
stale Position row, appends one InconsistentStateRecord with
exchange_success true and db_success false, and inserts no close
Trade row. -/
theorem monitor_no_trade_escalation (G : Gateway) (S : Snapshot) (now : Int) (L : Ledger)
    (o : DBPriceOrder)
    (h1 : exOrderPresent S o.order_id = false)
    (h2 : exPositionExists G S o.symbol = false)
    (hpre : precheckRejects G S o = false)
    (h4 : findCloseTrade G S o = none) :
    (processOrder G S now L o).1.positions
      = L.positions.filter (fun p => !(decide (p.symbol = o.symbol) && decide (p.side = o.side))) ∧
    (processOrder G S now L o).1.trades = L.trades ∧
    (processOrder G S now L o).1.inconsistent = L.inconsistent ++ [noTradeRow now o] ∧
    (noTradeRow now o).exchange_success = true ∧
    (noTradeRow now o).db_success = false := by
  have he : processOrder G S now L o = ambiguousTxn now L o := by
    rw [processOrder_noPos G S now L o h1 h2, handle_ambiguous G S now L o hpre h4 h2]
  rw [he, ambiguousTxn_eq]
  rcases cancelOppositeWrites_shape
      (applyWrite now L (Write.updateOrderStatus o.order_id OrderStatus.triggered)) o
    with hsh | ⟨oppId, hsh⟩ <;>
  · rw [hsh]
    simp [applyWrites, applyWrite, noTradeRow]

/-- A close-direction fill far from the stop trigger: the fill of the
paired take-profit order, for the C3 counterexample. -/
def cT3 : ExTrade :=
  { id := "T", contract := "BTC", price := 52000, size := -1, fee := 1, timestamp := 1004000 }

/-- Snapshot for the C3 counterexample: the order list and position
list are empty, the only trade history entry is the far fill. -/
def cS3 : Snapshot := { orders := [], positions := [], trades := [cT3] }

/-- Ledger with one stale position and its stop-loss order. -/
def cL3 : Ledger :=
  { positions := [wPos], priceOrders := [wOrder], trades := [], closeEvents := [],
    inconsistent := [] }

/-- C3 counterexample: the claim's hypotheses hold (order absent,
position absent, exhaustive search finds no matching close trade) yet
the monitor writes nothing at all: the quick pre-check sees the far
fill, rejects the order, and the stale Position row survives with no
InconsistentStateRecord. -/
theorem monitor_no_trade_escalation_counterexample :
    exOrderPresent cS3 wOrder.order_id = false ∧
    exPositionExists wG cS3 wOrder.symbol = false ∧
    findCloseTrade wG cS3 wOrder = none ∧
    runCycle wG cS3 0 cL3 = (cL3, []) ∧
    cL3.positions = [wPos] ∧
    cL3.inconsistent = [] := by
  have hpre : precheckRejects wG cS3 wOrder = true := by
    norm_num [precheckRejects, getMyTrades, closeDirection, priceMatchesTol,
      cS3, cT3, wOrder, wG, List.filter]
  have h4 : findCloseTrade wG cS3 wOrder = none := by
    norm_num [findCloseTrade, closeCandidates, getMyTrades, closeDirection, priceMatchesTol,
      cS3, cT3, wOrder, wG, List.filter]
  refine ⟨rfl, rfl, h4, ?_, rfl, rfl⟩
  have hact : activeOrders cL3 = [wOrder] := rfl
  rw [runCycle, hact]
  simp only [List.foldl, cycStep]
  rw [processOrder_noPos wG cS3 0 cL3 wOrder rfl rfl, handle_reject wG cS3 0 cL3 wOrder hpre]
  rfl

/-- Empty exchange snapshot: no orders, no positions, no trades. -/
def cS4 : Snapshot := { orders := [], positions := [], trades := [] }

/-- C4 counterexample: against the empty snapshot the monitor deletes
the Position row through the no-trade path while inserting no close
Trade row and no PositionCloseEvent row at all, so a deleted Position
exists with no close Trade sharing its trigger linkage. -/
theorem close_completeness_counterexample :
    cL3.positions = [wPos] ∧
    (runCycle wG cS4 0 cL3).1.positions = [] ∧
    (runCycle wG cS4 0 cL3).1.trades = [] ∧
    (runCycle wG cS4 0 cL3).1.closeEvents = [] ∧
    (runCycle wG cS4 0 cL3).1.inconsistent = [noTradeRow 0 wOrder] := by
  refine ⟨rfl, ?_, ?_, ?_, ?_⟩ <;> decide

/-- Whether a write is a close-trade insertion. -/
def isInsertTradeW (w : Write) : Bool :=
  match w with
  | Write.insertTrade _ => true
  | _ => false

/-- Whether a write is a close-event insertion. -/
def isInsertCloseEventW (w : Write) : Bool :=
  match w with
  | Write.insertCloseEvent _ => true
  | _ => false

/-- C4 amended: every run of the evidence-backed five-step commit
inserts exactly one close Trade row and exactly one PositionCloseEvent
row; the event links the triggering order id and the close trade id,
and the two insertions agree on the fill they record. -/
theorem commit_close_completeness (G : Gateway) (now : Int) (L : Ledger) (o : DBPriceOrder)
    (p : PosInfo) (t : ExTrade) :
    ((commitTriggeredTxn G now L o p t none).2.countP isInsertTradeW) = 1 ∧
    ((commitTriggeredTxn G now L o p t none).2.countP isInsertCloseEventW) = 1 ∧
    Write.insertTrade (closeTradeRow G now o p t) ∈ (commitTriggeredTxn G now L o p t none).2 ∧
    Write.insertCloseEvent (closeEventRow G now o p t) ∈ (commitTriggeredTxn G now L o p t none).2 ∧
    (closeEventRow G now o p t).trigger_order_id = o.order_id ∧
    (closeEventRow G now o p t).close_trade_id = t.id ∧
    (closeTradeRow G now o p t).type = TradeKind.closeK := by
  have he := commitTriggeredTxn_eq G now L o p t
  have hw : (commitTriggeredTxn G now L o p t none).2
      = Write.deletePosition o.symbol o.side ::
          Write.updateOrderStatus o.order_id OrderStatus.triggered ::
            (cancelOppositeWrites (commitOppositeLookupState now L o) o ++
              [Write.insertTrade (closeTradeRow G now o p t),
               Write.insertCloseEvent (closeEventRow G now o p t)]) := by
    rw [he]
  rw [hw]
  rcases cancelOppositeWrites_shape (commitOppositeLookupState now L o) o
    with hsh | ⟨oppId, hsh⟩ <;>
  · rw [hsh]
    simp [List.countP_cons, isInsertTradeW, isInsertCloseEventW, closeEventRow, closeTradeRow,
      List.countP_append]

/-- C3 amended witness: against the empty snapshot the severe path
fires on the concrete fixture. -/
theorem monitor_no_trade_escalation_witness :
    (processOrder wG cS4 0 cL3 wOrder).1.positions
      = cL3.positions.filter
          (fun p => !(decide (p.symbol = wOrder.symbol) && decide (p.side = wOrder.side))) ∧
    (processOrder wG cS4 0 cL3 wOrder).1.trades = cL3.trades ∧
    (processOrder wG cS4 0 cL3 wOrder).1.inconsistent
      = cL3.inconsistent ++ [noTradeRow 0 wOrder] ∧
    (noTradeRow 0 wOrder).exchange_success = true ∧
    (noTradeRow 0 wOrder).db_success = false :=
  monitor_no_trade_escalation wG cS4 0 cL3 wOrder rfl rfl rfl rfl

/-- The write lists of the ambiguous transaction, as a projection of
its defining equation. -/
theorem ambiguousTxn_writes (now : Int) (L : Ledger) (o : DBPriceOrder) :
    (ambiguousTxn now L o).2
      = Write.updateOrderStatus o.order_id OrderStatus.triggered ::
          (cancelOppositeWrites
              (applyWrite now L (Write.updateOrderStatus o.order_id OrderStatus.triggered)) o ++
            [Write.deletePosition o.symbol o.side,
             Write.insertInconsistent (noTradeRow now o)]) := by
  rw [ambiguousTxn_eq]

/-- The ambiguous transaction's state is the application of its
writes. -/
theorem ambiguousTxn_state (now : Int) (L : Ledger) (o : DBPriceOrder) :
    (ambiguousTxn now L o).1 = applyWrites now L ((ambiguousTxn now L o).2) := by
  rw [ambiguousTxn_eq]

/-- The write list of the five-step commit, as a projection of its
defining equation. -/
theorem commitTriggeredTxn_writes (G : Gateway) (now : Int) (L : Ledger) (o : DBPriceOrder)
    (p : PosInfo) (t : ExTrade) :
    (commitTriggeredTxn G now L o p t none).2
      = Write.deletePosition o.symbol o.side ::
          Write.updateOrderStatus o.order_id OrderStatus.triggered ::
            (cancelOppositeWrites (commitOppositeLookupState now L o) o ++
              [Write.insertTrade (closeTradeRow G now o p t),
               Write.insertCloseEvent (closeEventRow G now o p t)]) := by
  rw [commitTriggeredTxn_eq]

/-- The commit's state is the application of its writes. -/
theorem commitTriggeredTxn_state (G : Gateway) (now : Int) (L : Ledger) (o : DBPriceOrder)
    (p : PosInfo) (t : ExTrade) :
    (commitTriggeredTxn G now L o p t none).1
      = applyWrites now L ((commitTriggeredTxn G now L o p t none).2) := by
  rw [commitTriggeredTxn_eq]

/-- Writes that never rewrite an order id and never set a status back
to active: every write the triggered handling can emit is of this
shape. -/
def rowSafeStatus (w : Write) : Prop :=
  match w with
  | Write.updateOrderId _ _ => False
  | Write.updateOrderStatus _ st => st ≠ OrderStatus.active
  | _ => True

/-- The opposite-cancel step only emits cancelled status updates. -/
theorem cancelOppositeWrites_rowSafe (L : Ledger) (o : DBPriceOrder) :
    ∀ w ∈ cancelOppositeWrites L o, rowSafeStatus w := by
  rcases cancelOppositeWrites_shape L o with h | ⟨oppId, h⟩ <;>
  · rw [h]
    simp [rowSafeStatus]

/-- Every write emitted by handleTriggeredOrder is row safe: no id
rewrite, and no status update back to active. -/
theorem handle_writes_rowSafe (G : Gateway) (S : Snapshot) (now : Int) (L : Ledger)
    (o : DBPriceOrder) :
    ∀ w ∈ (handleTriggeredOrder G S now L o).2, rowSafeStatus w := by
  intro w hw
  rcases h3 : precheckRejects G S o with _ | _
  case true =>
    rw [handle_reject G S now L o h3] at hw
    simp at hw
  case false =>
  rcases h4 : findCloseTrade G S o with _ | t
  · rcases h2 : exPositionExists G S o.symbol with _ | _
    case false =>
      rw [handle_ambiguous G S now L o h3 h4 h2, ambiguousTxn_writes] at hw
      rcases List.mem_cons.mp hw with rfl | hw2
      · simp [rowSafeStatus]
      rcases List.mem_append.mp hw2 with hcw | hw3
      · exact cancelOppositeWrites_rowSafe _ o w hcw
      rcases List.mem_cons.mp hw3 with rfl | hw4
      · simp [rowSafeStatus]
      rcases List.mem_cons.mp hw4 with rfl | hw5
      · simp [rowSafeStatus]
      simp at hw5
    case true =>
      rw [handle_cancelled G S now L o h3 h4 h2] at hw
      rcases List.mem_cons.mp hw with rfl | hw2
      · simp [rowSafeStatus]
      simp at hw2
  · rcases hp : getPositionOrFallback L o with _ | p
    · rw [handle_noPosition G S now L o t h3 h4 hp] at hw
      rcases List.mem_cons.mp hw with rfl | hw2
      · simp [rowSafeStatus]
      exact cancelOppositeWrites_rowSafe _ o w hw2
    · rw [handle_commit G S now L o t p h3 h4 hp, commitTriggeredTxn_writes] at hw
      rcases List.mem_cons.mp hw with rfl | hw2
      · simp [rowSafeStatus]
      rcases List.mem_cons.mp hw2 with rfl | hw3
      · simp [rowSafeStatus]
      rcases List.mem_append.mp hw3 with hcw | hw4
      · exact cancelOppositeWrites_rowSafe _ o w hcw
      rcases List.mem_cons.mp hw4 with rfl | hw5
      · simp [rowSafeStatus]
      rcases List.mem_cons.mp hw5 with rfl | hw6
      · simp [rowSafeStatus]
      simp at hw6

/-- C2 witness: rollback at the concrete fixture with step 3 failing. -/
theorem commit_triggered_rollback_witness :
    (commitTriggeredTxn wG 77 wLedger wOrder wPosInfo wTrade (some 2)).1.positions
        = wLedger.positions ∧
    (commitTriggeredTxn wG 77 wLedger wOrder wPosInfo wTrade (some 2)).1.priceOrders
        = wLedger.priceOrders ∧
    (commitTriggeredTxn wG 77 wLedger wOrder wPosInfo wTrade (some 2)).1.trades
        = wLedger.trades ∧
    (commitTriggeredTxn wG 77 wLedger wOrder wPosInfo wTrade (some 2)).1.closeEvents
        = wLedger.closeEvents ∧
    (commitTriggeredTxn wG 77 wLedger wOrder wPosInfo wTrade (some 2)).1.inconsistent
        = wLedger.inconsistent ++ [triggeredFailRow 77 wOrder] ∧
    (triggeredFailRow 77 wOrder).exchange_success = true ∧
    (triggeredFailRow 77 wOrder).db_success = false :=
  commit_triggered_rollback wG 77 wLedger wOrder wPosInfo wTrade ⟨2, by decide⟩

/-- Snapshot for C5: no conditional orders on the exchange, but a live
nonzero position for the contract and an empty trade history. -/
def cS5 : Snapshot :=
  { orders := [], positions := [{ contract := "BTC", size := 1 }], trades := [] }

/-- C5 counterexample: the claim's hypotheses hold (order id absent,
exchange position nonzero, no matching close trade after all retries)
yet the cycle performs no write at all and the order stays active; its
status is never set to cancelled. -/
theorem monitor_cancelled_claim_counterexample :
    exOrderPresent cS5 wOrder.order_id = false ∧
    exPositionExists wG cS5 wOrder.symbol = true ∧
    findCloseTrade wG cS5 wOrder = none ∧
    runCycle wG cS5 0 cL3 = (cL3, []) ∧
    cL3.priceOrders.map (fun r => r.status) = [OrderStatus.active] := by
  exact ⟨rfl, by decide, rfl, by decide, rfl⟩

/-- C5 amended: when an active order's id is absent from the exchange
while the position is still reported, no id repair applies and no
close trade is found, the monitor defers: it performs no ledger write
in that cycle, leaving the order active and the Position row
untouched; the cancelled status update exists only on the direct
handling path, where the position re-check still sees the position. -/
theorem monitor_vanished_order_defers (G : Gateway) (S : Snapshot) (now : Int) (L : Ledger)
    (o : DBPriceOrder)
    (h1 : exOrderPresent S o.order_id = false)
    (h2 : exPositionExists G S o.symbol = true)
    (h3 : repairCandidate G S o = none)
    (h4 : findCloseTrade G S o = none) :
    processOrder G S now L o = (L, []) ∧
    (precheckRejects G S o = false →
      handleTriggeredOrder G S now L o
        = (applyWrite now L (Write.updateOrderStatus o.order_id OrderStatus.cancelled),
           [Write.updateOrderStatus o.order_id OrderStatus.cancelled])) :=
  ⟨processOrder_silent G S now L o h1 h2 h3 h4,
   fun hp => handle_cancelled G S now L o hp h4 h2⟩

/-- C5 amended witness: the deferral at the concrete fixture. -/
theorem monitor_vanished_order_defers_witness :
    processOrder wG cS5 0 cL3 wOrder = (cL3, []) ∧
    (precheckRejects wG cS5 wOrder = false →
      handleTriggeredOrder wG cS5 0 cL3 wOrder
        = (applyWrite 0 cL3 (Write.updateOrderStatus wOrder.order_id OrderStatus.cancelled),
           [Write.updateOrderStatus wOrder.order_id OrderStatus.cancelled])) :=
  monitor_vanished_order_defers wG cS5 0 cL3 wOrder rfl (by decide) rfl rfl

/-- C10: when an active order's id is absent from the exchange order
list and its contract has no exchange position, the identifier drift
repair is not attempted: the order goes directly to triggered
handling, and no order-id rewrite is ever written. -/
theorem drift_repair_requires_position (G : Gateway) (S : Snapshot) (now : Int) (L : Ledger)
    (o : DBPriceOrder)
    (h1 : exOrderPresent S o.order_id = false)
    (h2 : exPositionExists G S o.symbol = false) :
    processOrder G S now L o = handleTriggeredOrder G S now L o ∧
    ∀ a b, Write.updateOrderId a b ∉ (processOrder G S now L o).2 := by
  have he := processOrder_noPos G S now L o h1 h2
  refine ⟨he, ?_⟩
  intro a b hmem
  rw [he] at hmem
  exact handle_writes_rowSafe G S now L o _ hmem

/-- C10 witness: at the concrete fixture the handling runs directly
and its writes contain no id rewrite. -/
theorem drift_repair_requires_position_witness :
    processOrder wG cS4 0 cL3 wOrder = handleTriggeredOrder wG cS4 0 cL3 wOrder ∧
    ∀ a b, Write.updateOrderId a b ∉ (processOrder wG cS4 0 cL3 wOrder).2 :=
  drift_repair_requires_position wG cS4 0 cL3 wOrder rfl rfl

/-- The no-write predicate of one scan iteration: processing an order
against a snapshot writes nothing exactly when the order is still on
the exchange, or defers on a present position with no repair and no
trade, or is vetoed by the price pre-check. -/
def writesFree (G : Gateway) (S : Snapshot) (o : DBPriceOrder) : Bool :=
  if exOrderPresent S o.order_id then true
  else if exPositionExists G S o.symbol then
    match repairCandidate G S o with
    | some _ => false
    | none =>
        match findCloseTrade G S o with
        | none => true
        | some _ => precheckRejects G S o
  else precheckRejects G S o

/-- An order whose id is on the exchange is write free. -/
theorem free_of_exPresent (G : Gateway) (S : Snapshot) (r : DBPriceOrder)
    (h : exOrderPresent S r.order_id = true) : writesFree G S r = true := by
  simp [writesFree, h]

/-- A write-free order is processed without touching the ledger. -/
theorem processOrder_free (G : Gateway) (S : Snapshot) (now : Int) (L : Ledger)
    (o : DBPriceOrder) (hfree : writesFree G S o = true) :
    processOrder G S now L o = (L, []) := by
  rcases h1 : exOrderPresent S o.order_id with _ | _
  case true => exact processOrder_orderPresent G S now L o h1
  case false =>
  rcases h2 : exPositionExists G S o.symbol with _ | _
  case false =>
    have hpre : precheckRejects G S o = true := by
      simpa [writesFree, h1, h2] using hfree
    rw [processOrder_noPos G S now L o h1 h2]
    exact handle_reject G S now L o hpre
  case true =>
  rcases h3 : repairCandidate G S o with _ | newId
  · rcases h4 : findCloseTrade G S o with _ | t
    · exact processOrder_silent G S now L o h1 h2 h3 h4
    · have hpre : precheckRejects G S o = true := by
        simpa [writesFree, h1, h2, h3, h4] using hfree
      rw [processOrder_posIn_found G S now L o t h1 h2 h3 h4]
      exact handle_reject G S now L o hpre
  · exact absurd hfree (by simp [writesFree, h1, h2, h3])

/-- A row-safe write never changes a row's order id. -/
theorem rowMap_order_id (now : Int) (w : Write) (r : DBPriceOrder) (h : rowSafeStatus w) :
    (rowMap now w r).order_id = r.order_id := by
  cases w with
  | updateOrderId a b => exact h.elim
  | updateOrderStatus oid st =>
      by_cases hr : r.order_id = oid <;> simp [rowMap, hr]
  | deletePosition s sd => rfl
  | insertTrade t => rfl
  | insertCloseEvent e => rfl
  | insertInconsistent x => rfl

/-- A row-safe write never resurrects a non-active row. -/
theorem rowMap_dead (now : Int) (w : Write) (r : DBPriceOrder) (h : rowSafeStatus w)
    (hr : r.status ≠ OrderStatus.active) :
    (rowMap now w r).status ≠ OrderStatus.active := by
  cases w with
  | updateOrderId a b => exact h.elim
  | updateOrderStatus oid st =>
      by_cases hid : r.order_id = oid
      · simpa [rowMap, hid] using h
      · simpa [rowMap, hid] using hr
  | deletePosition s sd => exact hr
  | insertTrade t => exact hr
  | insertCloseEvent e => exact hr
  | insertInconsistent x => exact hr

/-- Row-safe write chains keep non-active rows non-active. -/
theorem chain_stays_dead (now : Int) :
    ∀ (ws : List Write) (r : DBPriceOrder), (∀ w ∈ ws, rowSafeStatus w) →
      r.status ≠ OrderStatus.active → (chain now ws r).status ≠ OrderStatus.active := by
  intro ws
  induction ws with
  | nil => intro r _ hr; exact hr
  | cons w ws ih =>
      intro r hall hr
      exact ih (rowMap now w r)
        (fun x hx => hall x (List.mem_cons_of_mem _ hx))
        (rowMap_dead now w r (hall w (List.mem_cons_self _ _)) hr)

/-- A row-safe write chain either leaves a row untouched or leaves it
non-active. -/
theorem chain_id_or_dead (now : Int) :
    ∀ (ws : List Write) (r : DBPriceOrder), (∀ w ∈ ws, rowSafeStatus w) →
      chain now ws r = r ∨ (chain now ws r).status ≠ OrderStatus.active := by
  intro ws
  induction ws with
  | nil => intro r _; left; rfl
  | cons w ws ih =>
      intro r hall
      have hw := hall w (List.mem_cons_self _ _)
      have htail : ∀ x ∈ ws, rowSafeStatus x := fun x hx => hall x (List.mem_cons_of_mem _ hx)
      cases w with
      | updateOrderId a b => exact hw.elim
      | updateOrderStatus oid st =>
          by_cases hid : r.order_id = oid
          · right
            refine chain_stays_dead now ws (rowMap now (Write.updateOrderStatus oid st) r) htail ?_
            simpa [rowMap, hid] using hw
          · have hmap : rowMap now (Write.updateOrderStatus oid st) r = r := by
              simp [rowMap, hid]
            have := ih r htail
            rw [show chain now (Write.updateOrderStatus oid st :: ws) r = chain now ws r by
              simp [chain, List.foldl_cons, hmap]]
            exact this
      | deletePosition s sd => exact ih r htail
      | insertTrade t => exact ih r htail
      | insertCloseEvent e => exact ih r htail
      | insertInconsistent x => exact ih r htail

/-- A row-safe chain containing a terminal status update addressed to
a row's order id leaves that row non-active. -/
theorem chain_kills (now : Int) :
    ∀ (ws : List Write) (r : DBPriceOrder) (st : OrderStatus),
      (∀ w ∈ ws, rowSafeStatus w) → st ≠ OrderStatus.active →
      Write.updateOrderStatus r.order_id st ∈ ws →
      (chain now ws r).status ≠ OrderStatus.active := by
  intro ws
  induction ws with
  | nil => intro r st _ _ hmem; simp at hmem
  | cons w ws ih =>
      intro r st hall hst hmem
      have htail : ∀ x ∈ ws, rowSafeStatus x := fun x hx => hall x (List.mem_cons_of_mem _ hx)
      rcases List.mem_cons.mp hmem with heq | hmem2
      · rw [show chain now (w :: ws) r = chain now ws (rowMap now w r) from rfl]
        refine chain_stays_dead now ws (rowMap now w r) htail ?_
        rw [← heq]
        simpa [rowMap] using hst
      · have hid := rowMap_order_id now w r (hall w (List.mem_cons_self _ _))
        have hmem3 : Write.updateOrderStatus (rowMap now w r).order_id st ∈ ws := by
          rw [hid]; exact hmem2
        exact ih (rowMap now w r) st htail hst hmem3

/-- The price_orders table after a write sequence is the pointwise
chain image of the table before it. -/
theorem applyWrites_priceOrders (now : Int) :
    ∀ (ws : List Write) (L : Ledger),
      (applyWrites now L ws).priceOrders = L.priceOrders.map (chain now ws) := by
  intro ws
  induction ws with
  | nil =>
      intro L
      rw [show chain now [] = fun r : DBPriceOrder => r from rfl]
      exact (List.map_id' L.priceOrders).symm
  | cons w ws ih =>
      intro L
      have h1 : applyWrites now L (w :: ws) = applyWrites now (applyWrite now L w) ws := rfl
      have h2 : (applyWrite now L w).priceOrders = L.priceOrders.map (rowMap now w) := rfl
      rw [h1, ih, h2, List.map_map]
      rfl

/-- The ledger handleTriggeredOrder returns is always the application
of the writes it returns. -/
theorem handle_state_eq (G : Gateway) (S : Snapshot) (now : Int) (L : Ledger)
    (o : DBPriceOrder) :
    (handleTriggeredOrder G S now L o).1
      = applyWrites now L ((handleTriggeredOrder G S now L o).2) := by
  rcases h3 : precheckRejects G S o with _ | _
  case true =>
    rw [handle_reject G S now L o h3]
    rfl
  case false =>
  rcases h4 : findCloseTrade G S o with _ | t
  · rcases h2 : exPositionExists G S o.symbol with _ | _
    case false =>
      rw [handle_ambiguous G S now L o h3 h4 h2]
      exact ambiguousTxn_state now L o
    case true =>
      rw [handle_cancelled G S now L o h3 h4 h2]
      rfl
  · rcases hp : getPositionOrFallback L o with _ | p
    · rw [handle_noPosition G S now L o t h3 h4 hp]
      rfl
    · rw [handle_commit G S now L o t p h3 h4 hp]
      exact commitTriggeredTxn_state G now L o p t

/-- When the pre-check does not veto, the handling writes always
contain a terminal status update addressed to the processed order. -/
theorem handle_writes_kills (G : Gateway) (S : Snapshot) (now : Int) (L : Ledger)
    (o : DBPriceOrder) (h3 : precheckRejects G S o = false) :
    ∃ st, st ≠ OrderStatus.active ∧
      Write.updateOrderStatus o.order_id st ∈ (handleTriggeredOrder G S now L o).2 := by
  rcases h4 : findCloseTrade G S o with _ | t
  · rcases h2 : exPositionExists G S o.symbol with _ | _
    case false =>
      refine ⟨OrderStatus.triggered, by simp, ?_⟩
      rw [handle_ambiguous G S now L o h3 h4 h2, ambiguousTxn_writes]
      exact List.mem_cons_self _ _
    case true =>
      refine ⟨OrderStatus.cancelled, by simp, ?_⟩
      rw [handle_cancelled G S now L o h3 h4 h2]
      exact List.mem_cons_self _ _
  · rcases hp : getPositionOrFallback L o with _ | p
    · refine ⟨OrderStatus.triggered, by simp, ?_⟩
      rw [handle_noPosition G S now L o t h3 h4 hp]
      exact List.mem_cons_self _ _
    · refine ⟨OrderStatus.triggered, by simp, ?_⟩
      rw [handle_commit G S now L o t p h3 h4 hp, commitTriggeredTxn_writes]
      exact List.mem_cons_of_mem _ (List.mem_cons_self _ _)

/-- A repair candidate id is always a nonempty id present in the
exchange order map. -/
theorem repairCandidate_present (G : Gateway) (S : Snapshot) (o : DBPriceOrder) (nid : String)
    (h : repairCandidate G S o = some nid) : exOrderPresent S nid = true := by
  simp only [repairCandidate] at h
  rcases hfind : (S.orders.filter
      (fun e => decide (G.normalize e.contract = G.normalize o.symbol))).find?
      (fun e => ruleMatches o e) with _ | e
  · rw [hfind] at h
    simp at h
  · rw [hfind] at h
    have h5 : (if e.id ≠ "" ∧ e.id ≠ o.order_id then some e.id else none) = some nid := h
    by_cases hc : e.id ≠ "" ∧ e.id ≠ o.order_id
    · rw [if_pos hc] at h5
      have hid : nid = e.id := by simpa using h5.symm
      have heS : e ∈ S.orders :=
        (List.mem_filter.mp (List.mem_of_find?_eq_some hfind)).1
      subst hid
      rw [exOrderPresent, List.any_eq_true]
      refine ⟨e, List.mem_filter.mpr ⟨heS, by simpa using hc.1⟩, by simp⟩
    · rw [if_neg hc] at h5
      simp at h5

/-- Every row still active after triggered handling either carries an
id present on the exchange, or is an untouched ledger row; and an
untouched active row with the processed order's id forces the
pre-check veto. -/
theorem handle_active_aux (G : Gateway) (S : Snapshot) (now : Int) (L : Ledger)
    (o : DBPriceOrder)
    (hfp : precheckRejects G S o = true → writesFree G S o = true) :
    ∀ r, r ∈ (handleTriggeredOrder G S now L o).1.priceOrders →
      r.status = OrderStatus.active →
      r ∈ L.priceOrders ∧ (r.order_id = o.order_id → writesFree G S o = true) := by
  intro r hr hact
  rcases h3 : precheckRejects G S o with _ | _
  case true =>
    rw [handle_reject G S now L o h3] at hr
    exact ⟨hr, fun _ => hfp h3⟩
  case false =>
    have hsafe := handle_writes_rowSafe G S now L o
    have hstate := handle_state_eq G S now L o
    rw [hstate, applyWrites_priceOrders] at hr
    rcases List.mem_map.mp hr with ⟨r0, hr0, hmap⟩
    rcases chain_id_or_dead now ((handleTriggeredOrder G S now L o).2) r0 hsafe
      with hsame | hdead
    · rw [hsame] at hmap
      subst hmap
      refine ⟨hr0, fun hid => ?_⟩
      rcases handle_writes_kills G S now L o h3 with ⟨st, hst, hmem⟩
      rw [← hid] at hmem
      have hk := chain_kills now ((handleTriggeredOrder G S now L o).2) r0 st hsafe hst hmem
      rw [hsame] at hk
      exact absurd hact hk
    · rw [hmap] at hdead
      exact absurd hact hdead

/-- Every row still active after one scan iteration either carries an
exchange-present id, or is an untouched row of the incoming ledger
whose id can only coincide with the processed order's id when that
order was write free. -/
theorem processOrder_active (G : Gateway) (S : Snapshot) (now : Int) (L : Ledger)
    (o : DBPriceOrder) :
    ∀ r, r ∈ (processOrder G S now L o).1.priceOrders → r.status = OrderStatus.active →
      exOrderPresent S r.order_id = true ∨
      (r ∈ L.priceOrders ∧ (r.order_id = o.order_id → writesFree G S o = true)) := by
  intro r hr hact
  rcases h1 : exOrderPresent S o.order_id with _ | _
  case true =>
    rw [processOrder_orderPresent G S now L o h1] at hr
    exact Or.inr ⟨hr, fun _ => free_of_exPresent G S o h1⟩
  case false =>
  rcases h2 : exPositionExists G S o.symbol with _ | _
  case false =>
    rw [processOrder_noPos G S now L o h1 h2] at hr
    exact Or.inr (handle_active_aux G S now L o
      (fun hpre => by simp [writesFree, h1, h2, hpre]) r hr hact)
  case true =>
  rcases h3 : repairCandidate G S o with _ | newId
  · rcases h4 : findCloseTrade G S o with _ | t
    · rw [processOrder_silent G S now L o h1 h2 h3 h4] at hr
      exact Or.inr ⟨hr, fun _ => by simp [writesFree, h1, h2, h3, h4]⟩
    · rw [processOrder_posIn_found G S now L o t h1 h2 h3 h4] at hr
      exact Or.inr (handle_active_aux G S now L o
        (fun hpre => by simp [writesFree, h1, h2, h3, h4, hpre]) r hr hact)
  · rw [processOrder_repair G S now L o newId h1 h2 h3] at hr
    have hpr : (applyWrite now L (Write.updateOrderId o.order_id newId)).priceOrders
        = L.priceOrders.map (rowMap now (Write.updateOrderId o.order_id newId)) := rfl
    rw [hpr] at hr
    rcases List.mem_map.mp hr with ⟨r0, hr0, hmap⟩
    by_cases hid : r0.order_id = o.order_id
    · left
      rw [← hmap]
      have hnew : (rowMap now (Write.updateOrderId o.order_id newId) r0).order_id = newId := by
        simp [rowMap, hid]
      rw [hnew]
      exact repairCandidate_present G S o newId h3
    · right
      have hsame : rowMap now (Write.updateOrderId o.order_id newId) r0 = r0 := by
        simp [rowMap, hid]
      rw [hsame] at hmap
      subst hmap
      exact ⟨hr0, fun hidr => absurd hidr hid⟩

/-- Membership in a sorted insertion. -/
theorem mem_insertSorted (a x : DBPriceOrder) :
    ∀ l : List DBPriceOrder, x ∈ insertSorted a l ↔ x = a ∨ x ∈ l := by
  intro l
  induction l with
  | nil => simp [insertSorted]
  | cons b rest ih =>
      by_cases ho : ordLE a b = true
      · simp [insertSorted, ho]
      · simp only [insertSorted, if_neg ho, List.mem_cons, ih]
        tauto

/-- The active-order sort is a permutation in the membership sense. -/
theorem mem_sortActives (x : DBPriceOrder) :
    ∀ l : List DBPriceOrder, x ∈ sortActives l ↔ x ∈ l := by
  intro l
  induction l with
  | nil => simp [sortActives]
  | cons a rest ih =>
      have : sortActives (a :: rest) = insertSorted a (sortActives rest) := rfl
      rw [this, mem_insertSorted]
      simp [ih]

/-- A fold over write-free orders changes nothing. -/
theorem cycle_foldl_free (G : Gateway) (S : Snapshot) (now : Int) :
    ∀ (todo : List DBPriceOrder) (L : Ledger) (acc : List Write),
      (∀ o ∈ todo, writesFree G S o = true) →
      todo.foldl (cycStep G S now) (L, acc) = (L, acc) := by
  intro todo
  induction todo with
  | nil => intro L acc _; rfl
  | cons o rest ih =>
      intro L acc h
      have hstep : cycStep G S now (L, acc) o = (L, acc) := by
        simp [cycStep, processOrder_free G S now L o (h o (List.mem_cons_self _ _))]
      rw [List.foldl_cons, hstep]
      exact ih L acc (fun x hx => h x (List.mem_cons_of_mem _ hx))

/-- Invariant of the cycle fold: if every active row is write free or
still awaits processing, then after the fold every active row is
write free. -/
theorem cycle_inv (G : Gateway) (S : Snapshot) (now : Int) :
    ∀ (todo : List DBPriceOrder) (L : Ledger) (acc : List Write),
      (∀ r ∈ L.priceOrders, r.status = OrderStatus.active →
        writesFree G S r = true ∨ r ∈ todo) →
      ∀ r ∈ (todo.foldl (cycStep G S now) (L, acc)).1.priceOrders,
        r.status = OrderStatus.active → writesFree G S r = true := by
  intro todo
  induction todo with
  | nil =>
      intro L acc h r hr hact
      rcases h r hr hact with hf | habs
      · exact hf
      · simp at habs
  | cons o rest ih =>
      intro L acc h
      rw [List.foldl_cons,
        show cycStep G S now (L, acc) o
          = ((processOrder G S now L o).1, acc ++ (processOrder G S now L o).2) from rfl]
      apply ih
      intro r hr hact
      rcases processOrder_active G S now L o r hr hact with hex | ⟨hrL, himp⟩
      · exact Or.inl (free_of_exPresent G S r hex)
      · rcases h r hrL hact with hf | hmem
        · exact Or.inl hf
        · rcases List.mem_cons.mp hmem with heq | hrest
          · subst heq
            exact Or.inl (himp rfl)
          · exact Or.inr hrest

/-- After one full cycle every remaining active row is write free. -/
theorem cycle_post_free (G : Gateway) (S : Snapshot) (now : Int) (L : Ledger) :
    ∀ r ∈ (runCycle G S now L).1.priceOrders,
      r.status = OrderStatus.active → writesFree G S r = true := by
  refine cycle_inv G S now (activeOrders L) L [] ?_
  intro r hr hact
  right
  rw [activeOrders, mem_sortActives]
  exact List.mem_filter.mpr ⟨hr, by simp [hact]⟩

/-- C9: reconciliation is idempotent: running one full monitor cycle
and then a second one against the same exchange snapshot performs no
ledger write at all during the second cycle, whose resulting ledger
state equals the first cycle's. -/
theorem monitor_reconciliation_idempotent (G : Gateway) (S : Snapshot) (now1 now2 : Int)
    (L : Ledger) :
    runCycle G S now2 (runCycle G S now1 L).1 = ((runCycle G S now1 L).1, []) := by
  have hfree := cycle_post_free G S now1 L
  rw [runCycle]
  apply cycle_foldl_free
  intro o ho
  rw [activeOrders, mem_sortActives] at ho
  rcases List.mem_filter.mp ho with ⟨hmem, hst⟩
  exact hfree o hmem (by simpa using hst)
